import Mathlib

/-!
Shallow embedding of the lab-report table-interpretation core of `src/main.py`
(`parse_reference_range`, `is_out_of_range`, and the normalization /
column-classification / record-extraction logic of `get_lab_tests`).

The Python floating-point values this program manipulates are all produced by
`float()` on decimal literals, so they are embedded as exact decimal
fixed-point numbers (`Dec`: an integer numerator over a power-of-ten
denominator); `Dec.blt` is the `<` comparison by cross-multiplication, and
`Dec.toRat` relates the representation to `ℚ` (lemma `Dec.blt_iff_toRat`
below).  The special values `inf`/`nan` and underscore digit separators of
Python `float()` are outside the model.  Python `str` values are embedded as
`String`; whitespace is the six ASCII whitespace characters recognised by
Python's `str.strip` / `str.split` / `\s` on the inputs this program sees.
-/

/-- The six characters of Python's ASCII whitespace class (`\s`, `str.strip`,
`str.split`). -/
def pyIsSpace (c : Char) : Bool :=
  c == ' ' || c == '\t' || c == '\n' || c == '\r' || c == Char.ofNat 11 || c == Char.ofNat 12

/-- Python `str.strip()` on a list of characters. -/
def pyStrip (cs : List Char) : List Char :=
  ((cs.dropWhile pyIsSpace).reverse.dropWhile pyIsSpace).reverse

/-- Python `str.strip()`. -/
def pyStripS (s : String) : String := String.mk (pyStrip s.data)

/-- Python `str.lower()` (ASCII). -/
def pyLower (s : String) : String := String.mk (s.data.map Char.toLower)

/-- Characters matched by the regex class `[\d.]`. -/
def isDigitDot (c : Char) : Bool := c.isDigit || c == '.'

/-- Numeric value of a list of decimal digit characters. -/
def natOfDigits (cs : List Char) : Nat := cs.foldl (fun a c => a * 10 + (c.toNat - 48)) 0

/-- Exact decimal value `num / 10 ^ den10`, the embedding of the Python floats
this program produces. -/
structure Dec where
  num : Int
  den10 : Nat
deriving DecidableEq, Repr

/-- The rational value of a `Dec`. -/
def Dec.toRat (x : Dec) : ℚ := (x.num : ℚ) / (10 : ℚ) ^ x.den10

/-- Python `<` on two floats, by cross-multiplication. -/
def Dec.blt (x y : Dec) : Bool :=
  decide (x.num * ((Nat.pow 10 y.den10 : Nat) : Int) < y.num * ((Nat.pow 10 x.den10 : Nat) : Int))

/-- Python `float()` applied to a string of digits and dots (such as a group
captured by `[\d.]+`): defined exactly when there is at most one dot and at
least one digit, e.g. `float("1.2.3")` and `float(".")` raise `ValueError`. -/
def digitDotVal (cs : List Char) : Option Dec :=
  if cs.all isDigitDot && decide (cs.count '.' ≤ 1) && cs.any Char.isDigit then
    some ⟨(natOfDigits (cs.filter (fun c => c != '.')) : Int),
          ((cs.dropWhile (fun c => c != '.')).drop 1).length⟩
  else none

/-- The two groups captured by `re.match(r"([\d.]+)\s*-\s*([\d.]+)", s)`
(a prefix match; trailing text after the second group is ignored).  The three
character classes `[\d.]`, `\s`, and the literal `-` are pairwise disjoint, so
the greedy match is the unique one. -/
def rangeGroups (cs : List Char) : Option (List Char × List Char) :=
  let a := cs.takeWhile isDigitDot
  let r1 := (cs.dropWhile isDigitDot).dropWhile pyIsSpace
  match a, r1 with
  | [], _ => none
  | _, [] => none
  | _, c :: t =>
    if c == '-' then
      let b := (t.dropWhile pyIsSpace).takeWhile isDigitDot
      if b.isEmpty then none else some (a, b)
    else none

/-- Outcome of `parse_reference_range` (src/main.py lines 14-18): a matched
pair of bounds, the `(None, None)` no-match result, or a propagated
`ValueError` from `float()` on a captured group. -/
inductive RangeResult where
  | raised : RangeResult
  | noMatch : RangeResult
  | pair : Dec → Dec → RangeResult
deriving DecidableEq, Repr

/-- Embedding of `parse_reference_range` (src/main.py lines 14-18): match
`([\d.]+)\s*-\s*([\d.]+)` at the start of the string and convert both captured
groups with `float` (which raises when a group is not a valid number). -/
def parse_reference_range (s : String) : RangeResult :=
  match rangeGroups s.data with
  | none => RangeResult.noMatch
  | some (g1, g2) =>
    match digitDotVal g1, digitDotVal g2 with
    | some l, some h => RangeResult.pair l h
    | _, _ => RangeResult.raised

/-- Exponent marker of a Python float literal. -/
def isExpChar (c : Char) : Bool := c == 'e' || c == 'E'

/-- Apply the exponent part of a Python float literal: `ds` must be a
nonempty digit string. -/
def expApply (m : Dec) (neg : Bool) (ds : List Char) : Option Dec :=
  if (!ds.isEmpty) && ds.all Char.isDigit then
    some (if neg then ⟨m.num, m.den10 + natOfDigits ds⟩
          else ⟨m.num * ((Nat.pow 10 (natOfDigits ds) : Nat) : Int), m.den10⟩)
  else none

/-- Unsigned Python float literal: mantissa, optionally `e`/`E` and a signed
digit exponent. -/
def pyFloatNum (cs : List Char) : Option Dec :=
  match digitDotVal (cs.takeWhile (fun c => !(isExpChar c))) with
  | none => none
  | some m =>
    match cs.dropWhile (fun c => !(isExpChar c)) with
    | [] => some m
    | _ :: ex =>
      match ex with
      | '+' :: t => expApply m false t
      | '-' :: t => expApply m true t
      | t => expApply m false t

/-- Python `float()` on a string: leading/trailing whitespace allowed, then an
optional sign and a decimal literal with optional exponent.  `None` embeds a
raised `ValueError`. -/
def pyFloat (s : String) : Option Dec :=
  match pyStrip s.data with
  | '+' :: rest => pyFloatNum rest
  | '-' :: rest => (pyFloatNum rest).map (fun q => ⟨-q.num, q.den10⟩)
  | cs => pyFloatNum cs

/-- Embedding of `is_out_of_range` (src/main.py lines 20-28): parse the range, convert the
value with `float`, and compare `value < low or value > high`; any failure (no
regex match, or an exception from either conversion) yields `None`. -/
def is_out_of_range (value ref_range : String) : Option Bool :=
  match parse_reference_range ref_range with
  | RangeResult.pair low high =>
    match pyFloat value with
    | some v => some (Dec.blt v low || Dec.blt high v)
    | none => none
  | _ => none

/-- A table cell: `none` embeds a pandas `NaN`, `some s` a string cell. -/
abbrev Cell := Option String

/-- One table row. -/
abbrev Row := List Cell

/-- A table as held in the `img2table` DataFrame: a list of rows. -/
abbrev Table := List Row

/-- Number of columns of a (rectangular) table. -/
def ncols (t : Table) : Nat := (t.headD []).length

/-- Rectangularity: every row has the table's column count (a pandas
DataFrame is rectangular by construction). -/
def Rect (t : Table) : Prop := ∀ r ∈ t, r.length = ncols t

instance (t : Table) : Decidable (Rect t) :=
  inferInstanceAs (Decidable (∀ r ∈ t, r.length = ncols t))

/-- Effect of `df.replace('None', np.nan).replace('', np.nan)` on one cell
(src/main.py lines 120-121). -/
def replaceCell (c : Cell) : Cell :=
  match c with
  | none => none
  | some s => if s = "None" ∨ s = "" then none else some s

/-- The two `replace` steps applied to the whole table. -/
def replaceTable (t : Table) : Table := t.map (fun r => r.map replaceCell)

/-- A row whose cells are all `NaN`. -/
def rowAllNone (r : Row) : Bool := r.all (fun c => c.isNone)

/-- Embedding of `df.dropna(how='all')` (src/main.py line 122). -/
def dropAllNoneRows (t : Table) : Table := t.filter (fun r => !(rowAllNone r))

/-- Column `j` consists only of `NaN` cells. -/
def colAllNone (t : Table) (j : Nat) : Bool := t.all (fun r => (r.getD j none).isNone)

/-- Indices of the columns kept by `df.dropna(axis=1, how='all')`. -/
def survivingIdx (t : Table) : List Nat :=
  (List.range (ncols t)).filter (fun j => !(colAllNone t j))

/-- The full cleaning pipeline of src/main.py lines 120-123: replace the
placeholder tokens with `NaN`, drop all-`NaN` rows, then drop all-`NaN`
columns. -/
def cleanTable (t : Table) : Table :=
  let t1 := dropAllNoneRows (replaceTable t)
  t1.map (fun r => (survivingIdx t1).map (fun j => r.getD j none))

/-- The rejection test of src/main.py line 126: fewer than 2 rows or fewer
than 2 columns after cleaning. -/
def tooSmall (t : Table) : Bool := decide (t.length < 2) || decide (ncols t < 2)

/-- Normalization: the cleaned table, or `none` when the table is skipped as
too small (src/main.py lines 120-128). -/
def normalizeTable (t : Table) : Option Table :=
  if tooSmall (cleanTable t) then none else some (cleanTable t)

/-- The per-table column-role mapping `col_map` of src/main.py lines 134-165;
columns are identified by their position in the cleaned table. -/
structure ColMap where
  test_name : Option Nat
  test_value : Option Nat
  bio_reference_range : Option Nat
  test_unit : Option Nat
deriving DecidableEq, Repr

/-- The empty mapping `col_map = {}`. -/
def ColMap.init : ColMap := ⟨none, none, none, none⟩

/-- Substring test, Python's `in` on strings (character lists). -/
def isInfixList (p : List Char) : List Char → Bool
  | [] => p.isEmpty
  | c :: t => p.isPrefixOf (c :: t) || isInfixList p t

/-- Python `pat in s` for strings. -/
def infixOf (pat s : String) : Bool := isInfixList pat.data s.data

/-- The test-name token list of src/main.py line 146. -/
def nameTokens : List String :=
  ["test", "parameter", "investigation", "rbc", "wbc", "hb", "platelet"]

/-- The unit token list of src/main.py line 155. -/
def unitTokens : List String :=
  ["g/dl", "mg/dl", "iu/l", "mmol/l", "/cumm", "%", "fl", "pg"]

/-- Full-string match of `^\d*\.?\d+\s*[a-zA-Z/]*$` (src/main.py line 149).
The character classes of the three regex parts are pairwise disjoint, so the
decomposition into maximal runs is the unique candidate: the `[\d.]` prefix
must be a number (at most one dot, ending in a digit), then whitespace, then
only letters or `/` up to the end. -/
def matchTestValue (cs : List Char) : Bool :=
  let a := cs.takeWhile isDigitDot
  let r1 := cs.dropWhile isDigitDot
  let r2 := r1.dropWhile pyIsSpace
  (!a.isEmpty) && decide (a.count '.' ≤ 1) &&
    (match a.getLast? with | some c => c.isDigit | none => false) &&
    r2.all (fun c => c.isAlpha || c == '/')

/-- Prefix match of `[\d.]+[\s-]+[\d.]+` (src/main.py line 152): a nonempty
digits-and-dots run, a nonempty run of whitespace or hyphens, then at least
one further digit-or-dot character; the three classes are pairwise
disjoint, so the greedy decomposition is the unique candidate. -/
def matchRangeDetect (cs : List Char) : Bool :=
  let r1 := cs.dropWhile isDigitDot
  let r2 := r1.dropWhile (fun c => pyIsSpace c || c == '-')
  (!(cs.takeWhile isDigitDot).isEmpty) &&
    (!(r1.takeWhile (fun c => pyIsSpace c || c == '-')).isEmpty) &&
    (match r2.head? with | some c => isDigitDot c | none => false)

/-- Embedding of `sample_values = df[col].dropna().astype(str).tolist()` (src/main.py
line 139): the column's non-`NaN` cells. -/
def sampleValues (cells : List Cell) : List String := cells.filterMap id

/-- One iteration of the column-classification loop of src/main.py lines
135-165 for the column at position `i` with header label `label`:
`sample_values = df[col].dropna().astype(str).tolist()`, then the ordered
`if`/`elif` cascade of content rules followed by header-text rules.  Each
branch assigns the column to one role with no check whether that role was
already claimed. -/
def classifyStep (m : ColMap) (i : Nat) (label : String) (cells : List Cell) : ColMap :=
  if (sampleValues cells).isEmpty then m
  else if (sampleValues cells).any (fun v => nameTokens.any (fun w => infixOf w (pyLower v))) then
    { m with test_name := some i }
  else if (sampleValues cells).any (fun v => matchTestValue (pyStrip v.data)) then
    { m with test_value := some i }
  else if (sampleValues cells).any (fun v => matchRangeDetect (pyStrip v.data)) then
    { m with bio_reference_range := some i }
  else if (sampleValues cells).any (fun v => unitTokens.any (fun w => infixOf w (pyLower v))) then
    { m with test_unit := some i }
  else if infixOf "test" (pyLower label) &&
      (infixOf "name" (pyLower label) || infixOf "parameter" (pyLower label)) then
    { m with test_name := some i }
  else if infixOf "value" (pyLower label) || infixOf "result" (pyLower label) then
    { m with test_value := some i }
  else if infixOf "range" (pyLower label) || infixOf "reference" (pyLower label) then
    { m with bio_reference_range := some i }
  else if infixOf "unit" (pyLower label) then
    { m with test_unit := some i }
  else m

/-- Fold of `classifyStep` over the columns, left to right. -/
def classifyAux : ColMap → Nat → List (String × List Cell) → ColMap
  | m, _, [] => m
  | m, i, (l, cs) :: rest => classifyAux (classifyStep m i l cs) (i + 1) rest

/-- The content/header classification pass over all columns
(src/main.py lines 134-165), before positional fallback. -/
def classify (cols : List (String × List Cell)) : ColMap := classifyAux ColMap.init 0 cols

/-- Value of `len(col_map)`: the number of roles assigned. -/
def mapSize (m : ColMap) : Nat :=
  [m.test_name, m.test_value, m.bio_reference_range, m.test_unit].countP (fun x => x.isSome)

/-- The positional fallback of src/main.py lines 173-181: any still-unmapped
role receives the column at its conventional position (0, 1, 2, 3) whenever
that position exists, with no check whether that column is already claimed
by another role. -/
def positionalFallback (m : ColMap) (n : Nat) : ColMap :=
  let m1 := if m.test_name = none ∧ 0 < n then { m with test_name := some 0 } else m
  let m2 := if m1.test_value = none ∧ 1 < n then { m1 with test_value := some 1 } else m1
  let m3 := if m2.bio_reference_range = none ∧ 2 < n then { m2 with bio_reference_range := some 2 } else m2
  if m3.test_unit = none ∧ 3 < n then { m3 with test_unit := some 3 } else m3

/-- Classification followed by the `len(col_map) < 2` rejection (src/main.py
lines 169-171) and positional fallback: `none` means the table is skipped
with "insufficient column mapping". -/
def classifyFull (cols : List (String × List Cell)) : Option ColMap :=
  let m := classify cols
  if mapSize m < 2 then none else some (positionalFallback m cols.length)

/-- Boolean check that two roles do not hold the same column index. -/
def pairNeB (x y : Option Nat) : Bool :=
  match x, y with
  | some a, some b => a != b
  | _, _ => true

/-- No two roles of the mapping hold the same column index. -/
def distinctRolesB (m : ColMap) : Bool :=
  pairNeB m.test_name m.test_value && pairNeB m.test_name m.bio_reference_range &&
    pairNeB m.test_name m.test_unit && pairNeB m.test_value m.bio_reference_range &&
    pairNeB m.test_value m.test_unit && pairNeB m.bio_reference_range m.test_unit

/-- The `LabTest` record of src/main.py lines 30-35. -/
structure LabTest where
  test_name : String
  test_value : String
  bio_reference_range : String
  test_unit : String
  lab_test_out_of_range : Bool
deriving DecidableEq, Repr

/-- Embedding of `str(row.get(col_map.get(role, ''), ''))` (lines 185-188):
an unmapped role resolves to `''`; a mapped role reads the cell at the
column's position, where a pandas `NaN` prints as `"nan"`.  In the pipeline
the mapped index is always within the row. -/
def resolveCell (row : Row) (idx : Option Nat) : String :=
  match idx with
  | none => ""
  | some j =>
    match row.getD j none with
    | none => "nan"
    | some s => s

/-- The skip test of src/main.py lines 190-193:
`not s or s.lower() in ['none', 'nan', '']` (applied after `.strip()`). -/
def badField (s : String) : Bool :=
  s == "" || (pyLower s == "none" || pyLower s == "nan" || pyLower s == "")

/-- Python `str.split()` with no argument: split on runs of whitespace,
discarding empty tokens. -/
def splitWsAux : List Char → List Char → List String
  | [], acc => if acc.isEmpty then [] else [String.mk acc.reverse]
  | c :: rest, acc =>
    if pyIsSpace c then
      if acc.isEmpty then splitWsAux rest []
      else String.mk acc.reverse :: splitWsAux rest []
    else splitWsAux rest (c :: acc)

/-- Python `s.split()`. -/
def pySplit (s : String) : List String := splitWsAux s.data []

/-- The per-row body of src/main.py lines 183-216: resolve the four cells,
skip the row when test_name or test_value fails the check, apply the
value/unit fallback split, evaluate the range with indeterminate mapped to
`False`, and build the record.  `none` embeds a skipped row. -/
def processRow (row : Row) (m : ColMap) : Option LabTest :=
  let test_name := pyStripS (resolveCell row m.test_name)
  let test_value := pyStripS (resolveCell row m.test_value)
  let bio := pyStripS (resolveCell row m.bio_reference_range)
  let unit := pyStripS (resolveCell row m.test_unit)
  if badField test_name then none
  else if badField test_value then none
  else
    let p :=
      if unit == "" && test_value.data.contains '/' then
        let parts := pySplit test_value
        if 1 < parts.length then (parts.headD "", String.intercalate " " parts.tail)
        else (test_value, unit)
      else (test_value, unit)
    let oor := (is_out_of_range p.1 bio).getD false
    some ⟨test_name, p.1, bio, p.2, oor⟩

/-- A raw extracted table: the DataFrame's column labels (as strings) and its
cell grid. -/
structure RawTable where
  labels : List String
  rows : Table
deriving DecidableEq, Repr

/-- Normalization of one raw table, keeping the labels of the surviving
columns (src/main.py lines 118-128). -/
def normalizeRT (rt : RawTable) : Option (List String × Table) :=
  let t1 := dropAllNoneRows (replaceTable rt.rows)
  let u := cleanTable rt.rows
  if tooSmall u then none
  else some ((survivingIdx t1).map (fun j => rt.labels.getD j ""), u)

/-- The columns of the cleaned table paired with their labels, in
left-to-right order, as iterated by the classification loop. -/
def colsOf (labs : List String) (u : Table) : List (String × List Cell) :=
  (List.range (ncols u)).map (fun j => (labs.getD j "", u.map (fun r => r.getD j none)))

/-- Processing of one table (the body of the `for table` loop, src/main.py
lines 116-219): normalize, classify (with the size-2 rejection and positional
fallback), then extract one optional record per row. -/
def processTable (rt : RawTable) : List LabTest :=
  match normalizeRT rt with
  | none => []
  | some (labs, u) =>
    match classifyFull (colsOf labs u) with
    | none => []
    | some m => u.filterMap (fun r => processRow r m)

/-- The document-level operation (src/main.py lines 53-229): `none` embeds an
image that `cv2.imread` could not decode (line 67), `some tables` the list of
raw tables produced by the external preprocessing and table+OCR
collaborators, which the core consumes.  Returns the `is_success` flag and
the aggregated records. -/
def get_lab_tests (decoded : Option (List RawTable)) : Bool × List LabTest :=
  match decoded with
  | none => (false, [])
  | some ts => (true, (ts.map processTable).flatten)

/-- Every index held by this optional role is below `i`. -/
def OptLt (x : Option Nat) (i : Nat) : Prop := ∀ j, x = some j → j < i

/-- All indices held by the mapping are below `i` (the number of columns
already processed). -/
def BoundedM (m : ColMap) (i : Nat) : Prop :=
  OptLt m.test_name i ∧ OptLt m.test_value i ∧ OptLt m.bio_reference_range i ∧ OptLt m.test_unit i

/-- Classification-loop invariant: assigned indices are bounded by the number
of processed columns and pairwise distinct. -/
def InvM (m : ColMap) (i : Nat) : Prop := BoundedM m i ∧ distinctRolesB m = true

/-- Concrete classifier input: column 0 matches the test-name token rule
(`"rbc"`), column 1 matches the range rule, and column 2 matches the
test-name token rule again (`"test"`). -/
def exColsDup : List (String × List Cell) :=
  [("0", [some "rbc", some "wbc"]), ("1", [some "1-2", some "3-4"]),
   ("2", [some "test x", some "hb x"])]

/-- Concrete raw table for the normalization witnesses. -/
def exT5 : Table :=
  [[some "Test", some "Value"], [some "None", some ""], [some "Hb", some "15"]]

/-- Concrete row for the record-validation witness. -/
def exRow6 : Row := [some "Hemoglobin", some "16.5", some "13.0-17.0", some "g/dL"]

/-- Column mapping for `exRow6`. -/
def exMap6 : ColMap := ⟨some 0, some 1, some 2, some 3⟩

/-- The record produced from `exRow6` under `exMap6`. -/
def exRec6 : LabTest := ⟨"Hemoglobin", "16.5", "13.0-17.0", "g/dL", false⟩

/-- Concrete row whose value cell carries its unit (`"12.5 g/dL"`). -/
def exRow9 : Row := [some "HB", some "12.5 g/dL"]

/-- Column mapping for `exRow9`: no unit column mapped. -/
def exMap9 : ColMap := ⟨some 0, some 1, none, none⟩

/-- A raw table rejected by normalization (one row, one column). -/
def exBadRT : RawTable := ⟨["0"], [[some "x"]]⟩

/-! ### Helper lemmas -/

theorem Dec.blt_iff_toRat (x y : Dec) : Dec.blt x y = true ↔ x.toRat < y.toRat := by
  rw [Dec.blt, Dec.toRat, Dec.toRat, decide_eq_true_eq,
    div_lt_div_iff₀ (by positivity) (by positivity)]
  simp only [Nat.pow_eq]
  exact_mod_cast Iff.rfl

theorem optLt_mono {x : Option Nat} {i : Nat} (h : OptLt x i) : OptLt x (i + 1) :=
  fun j hj => Nat.lt_succ_of_lt (h j hj)

theorem optLt_self (i : Nat) : OptLt (some i) (i + 1) := by
  intro j hj
  obtain rfl : i = j := Option.some.inj hj
  exact Nat.lt_succ_self i

theorem optLt_none (i : Nat) : OptLt none i := fun _ hj => Option.noConfusion hj

theorem pairNeB_left {y : Option Nat} {i : Nat} (hy : OptLt y i) : pairNeB (some i) y = true := by
  cases y with
  | none => rfl
  | some b =>
    have hb := hy b rfl
    simp only [pairNeB, bne_iff_ne, ne_eq]
    omega

theorem pairNeB_right {x : Option Nat} {i : Nat} (hx : OptLt x i) : pairNeB x (some i) = true := by
  cases x with
  | none => rfl
  | some a =>
    have ha := hx a rfl
    simp only [pairNeB, bne_iff_ne, ne_eq]
    omega

theorem classifyStep_cases (m : ColMap) (i : Nat) (l : String) (cs : List Cell) :
    classifyStep m i l cs = m ∨
    classifyStep m i l cs = { m with test_name := some i } ∨
    classifyStep m i l cs = { m with test_value := some i } ∨
    classifyStep m i l cs = { m with bio_reference_range := some i } ∨
    classifyStep m i l cs = { m with test_unit := some i } := by
  unfold classifyStep
  repeat' split
  all_goals tauto

theorem inv_step {m : ColMap} {i : Nat} (l : String) (cs : List Cell) (h : InvM m i) :
    InvM (classifyStep m i l cs) (i + 1) := by
  obtain ⟨⟨b1, b2, b3, b4⟩, hd⟩ := h
  simp only [distinctRolesB, Bool.and_eq_true] at hd
  obtain ⟨⟨⟨⟨⟨d12, d13⟩, d14⟩, d23⟩, d24⟩, d34⟩ := hd
  rcases classifyStep_cases m i l cs with hc | hc | hc | hc | hc <;> rw [hc]
  · exact ⟨⟨optLt_mono b1, optLt_mono b2, optLt_mono b3, optLt_mono b4⟩, by
      simp only [distinctRolesB, Bool.and_eq_true]
      exact ⟨⟨⟨⟨⟨d12, d13⟩, d14⟩, d23⟩, d24⟩, d34⟩⟩
  · exact ⟨⟨optLt_self i, optLt_mono b2, optLt_mono b3, optLt_mono b4⟩, by
      simp only [distinctRolesB, Bool.and_eq_true]
      exact ⟨⟨⟨⟨⟨pairNeB_left b2, pairNeB_left b3⟩, pairNeB_left b4⟩, d23⟩, d24⟩, d34⟩⟩
  · exact ⟨⟨optLt_mono b1, optLt_self i, optLt_mono b3, optLt_mono b4⟩, by
      simp only [distinctRolesB, Bool.and_eq_true]
      exact ⟨⟨⟨⟨⟨pairNeB_right b1, d13⟩, d14⟩, pairNeB_left b3⟩, pairNeB_left b4⟩, d34⟩⟩
  · exact ⟨⟨optLt_mono b1, optLt_mono b2, optLt_self i, optLt_mono b4⟩, by
      simp only [distinctRolesB, Bool.and_eq_true]
      exact ⟨⟨⟨⟨⟨d12, pairNeB_right b1⟩, d14⟩, pairNeB_right b2⟩, d24⟩, pairNeB_left b4⟩⟩
  · exact ⟨⟨optLt_mono b1, optLt_mono b2, optLt_mono b3, optLt_self i⟩, by
      simp only [distinctRolesB, Bool.and_eq_true]
      exact ⟨⟨⟨⟨⟨d12, d13⟩, pairNeB_right b1⟩, d23⟩, pairNeB_right b2⟩, pairNeB_right b3⟩⟩

theorem inv_init : InvM ColMap.init 0 :=
  ⟨⟨optLt_none 0, optLt_none 0, optLt_none 0, optLt_none 0⟩, rfl⟩

theorem classifyAux_inv :
    ∀ (cols : List (String × List Cell)) (m : ColMap) (i : Nat),
      InvM m i → InvM (classifyAux m i cols) (i + cols.length) := by
  intro cols
  induction cols with
  | nil => intro m i h; simpa [classifyAux] using h
  | cons c rest ih =>
    intro m i h
    obtain ⟨l, cs⟩ := c
    have h2 := ih (classifyStep m i l cs) (i + 1) (inv_step l cs h)
    show InvM (classifyAux (classifyStep m i l cs) (i + 1) rest) (i + (rest.length + 1))
    have : i + (rest.length + 1) = (i + 1) + rest.length := by omega
    rw [this]
    exact h2

/-- C1: contrary to the claim, the classifier mapping is not 1:1.  On
`exColsDup` column 0 claims TestName via the content rule, but column 2,
matching the same rule, reassigns TestName to itself; and after positional
fallback TestValue is given column index 1, which is already claimed by
ReferenceRange — two roles mapped to the same column. -/
theorem c1_counterexample :
    classifyStep ColMap.init 0 "0" [some "rbc", some "wbc"] = ⟨some 0, none, none, none⟩ ∧
    classify exColsDup = ⟨some 2, none, some 1, none⟩ ∧
    classifyFull exColsDup = some ⟨some 2, some 1, some 1, none⟩ ∧
    (classifyFull exColsDup).map distinctRolesB = some false := by
  refine ⟨by decide, by decide, by decide, by decide⟩

/-- C1 (amended): before positional fallback the content/header
classification pass never maps two roles to the same column index, because
each column is assigned at most one role and each assignment carries the
current column's index; but a later column matching an already-claimed rule
reassigns that role (last match wins), and the positional fallback of lines
173-181 fills an unmapped role with column 0/1/2/3 without checking whether
that index is claimed, so the mapping after fallback need not be 1:1. -/
theorem c1_classifier_injective_before_fallback :
    ∀ cols : List (String × List Cell), distinctRolesB (classify cols) = true :=
  fun cols => (classifyAux_inv cols ColMap.init 0 inv_init).2

theorem getD_range_map (r : Row) : (List.range r.length).map (fun j => r.getD j none) = r := by
  induction r with
  | nil => simp
  | cons a t ih =>
    rw [List.length_cons, List.range_succ_eq_map, List.map_cons, List.map_map]
    simp only [Function.comp_def, List.getD_cons_zero, List.getD_cons_succ]
    rw [ih]

theorem rect_rows_replace {t : Table} (h : Rect t) {r : Row} (hr : r ∈ replaceTable t) :
    r.length = ncols t := by
  simp only [replaceTable, List.mem_map] at hr
  obtain ⟨r0, hr0, rfl⟩ := hr
  simp [h r0 hr0]

theorem t1_rows_len {t : Table} (h : Rect t) {r : Row}
    (hr : r ∈ dropAllNoneRows (replaceTable t)) : r.length = ncols t :=
  rect_rows_replace h (List.mem_of_mem_filter hr)

theorem row_exists_cell {r : Row} (h : rowAllNone r = false) :
    ∃ j : Fin r.length, (r.get j).isNone = false := by
  rw [rowAllNone] at h
  by_contra hcon
  push_neg at hcon
  have hall : r.all (fun c => c.isNone) = true := by
    rw [List.all_eq_true]
    intro c hc
    obtain ⟨j, hj⟩ := List.mem_iff_get.mp hc
    have h2 := hcon j
    rw [← hj]
    simpa using h2
  rw [hall] at h
  cases h

theorem col_witness {t1 : Table} {j : Nat} (h : colAllNone t1 j = false) :
    ∃ r ∈ t1, (r.getD j none).isNone = false := by
  rw [colAllNone] at h
  by_contra hcon
  push_neg at hcon
  have hall : t1.all (fun r => (r.getD j none).isNone) = true := by
    rw [List.all_eq_true]
    intro r hr
    have h2 := hcon r hr
    simpa using h2
  rw [hall] at h
  cases h

theorem colAllNone_false_of_witness {t1 : Table} {j : Nat} {r : Row} (hr : r ∈ t1)
    (hc : (r.getD j none).isNone = false) : colAllNone t1 j = false := by
  rw [colAllNone]
  by_contra hcon
  rw [Bool.not_eq_false, List.all_eq_true] at hcon
  have h2 := hcon r hr
  rw [hc] at h2
  cases h2

theorem rowAllNone_false_of_witness {r : Row} {c : Cell} (hc : c ∈ r) (h : c.isNone = false) :
    rowAllNone r = false := by
  rw [rowAllNone]
  by_contra hcon
  rw [Bool.not_eq_false, List.all_eq_true] at hcon
  have h2 := hcon c hc
  rw [h] at h2
  cases h2

theorem cleanTable_rows_not_allnone {t : Table} (h : Rect t) :
    ∀ r' ∈ cleanTable t, rowAllNone r' = false := by
  intro r' hr'
  simp only [cleanTable, List.mem_map] at hr'
  obtain ⟨r, hr, rfl⟩ := hr'
  have hrow : rowAllNone r = false := by
    have h2 := List.of_mem_filter hr
    simpa using h2
  obtain ⟨j, hj⟩ := row_exists_cell hrow
  have hget : r.getD j.1 none = r.get j := by
    rw [List.getD_eq_getElem r none j.2, List.get_eq_getElem]
  have hjlt : j.1 < ncols (dropAllNoneRows (replaceTable t)) := by
    have hlen := t1_rows_len h hr
    obtain ⟨r0, rs, ht1⟩ : ∃ r0 rs, dropAllNoneRows (replaceTable t) = r0 :: rs := by
      cases h1 : dropAllNoneRows (replaceTable t) with
      | nil => rw [h1] at hr; cases hr
      | cons a b => exact ⟨a, b, rfl⟩
    have hr0 : r0 ∈ dropAllNoneRows (replaceTable t) := ht1 ▸ List.mem_cons_self r0 rs
    have h3 : ncols (dropAllNoneRows (replaceTable t)) = ncols t := by
      have h4 := t1_rows_len h hr0
      rw [ht1]
      simpa [ncols] using h4
    rw [h3, ← hlen]
    exact j.2
  have hcol : colAllNone (dropAllNoneRows (replaceTable t)) j.1 = false := by
    apply colAllNone_false_of_witness hr
    rw [hget]
    exact hj
  have hmem : j.1 ∈ survivingIdx (dropAllNoneRows (replaceTable t)) := by
    rw [survivingIdx, List.mem_filter]
    exact ⟨List.mem_range.mpr hjlt, by simp [hcol]⟩
  apply rowAllNone_false_of_witness (List.mem_map_of_mem _ hmem)
  rw [hget]
  exact hj

theorem cleanTable_cols_not_allnone (t : Table) :
    ∀ j, j < ncols (cleanTable t) → colAllNone (cleanTable t) j = false := by
  intro j hj
  cases ht1 : dropAllNoneRows (replaceTable t) with
  | nil =>
    simp only [cleanTable, ht1, List.map_nil] at hj
    simp [ncols] at hj
  | cons r0 rs =>
    have hnc : ncols (cleanTable t) = (survivingIdx (dropAllNoneRows (replaceTable t))).length := by
      simp only [cleanTable, ht1, List.map_cons]
      simp [ncols, ht1]
    rw [hnc] at hj
    have hkmem : (survivingIdx (dropAllNoneRows (replaceTable t))).get ⟨j, hj⟩ ∈
        survivingIdx (dropAllNoneRows (replaceTable t)) := List.get_mem _ _ _
    have hkmem2 : (survivingIdx (dropAllNoneRows (replaceTable t))).get ⟨j, hj⟩ ∈
        List.filter (fun k => !(colAllNone (dropAllNoneRows (replaceTable t)) k))
          (List.range (ncols (dropAllNoneRows (replaceTable t)))) := hkmem
    have hkfilter := List.mem_filter.mp hkmem2
    have hkcol : colAllNone (dropAllNoneRows (replaceTable t))
        ((survivingIdx (dropAllNoneRows (replaceTable t))).get ⟨j, hj⟩) = false := by
      have h2 := hkfilter.2
      simpa using h2
    obtain ⟨r, hr, hcell⟩ := col_witness hkcol
    have hrow' : ((survivingIdx (dropAllNoneRows (replaceTable t))).map
        (fun k => r.getD k none)) ∈ cleanTable t := by
      simp only [cleanTable]
      exact List.mem_map_of_mem _ hr
    apply colAllNone_false_of_witness hrow'
    have hlen : j < ((survivingIdx (dropAllNoneRows (replaceTable t))).map
        (fun k => r.getD k none)).length := by simpa using hj
    rw [List.getD_eq_getElem _ none hlen, List.getElem_map]
    rw [List.get_eq_getElem] at hcell
    exact hcell

theorem cleanTable_cells {t : Table} {r' : Row} (hr' : r' ∈ cleanTable t) {c : Cell}
    (hc : c ∈ r') : ∃ c0, c = replaceCell c0 := by
  simp only [cleanTable, List.mem_map] at hr'
  obtain ⟨r, hr, rfl⟩ := hr'
  simp only [List.mem_map] at hc
  obtain ⟨k, hk, rfl⟩ := hc
  have hrt : r ∈ replaceTable t := List.mem_of_mem_filter hr
  simp only [replaceTable, List.mem_map] at hrt
  obtain ⟨r0, hr0, rfl⟩ := hrt
  by_cases hkl : k < r0.length
  · refine ⟨r0.get ⟨k, hkl⟩, ?_⟩
    rw [List.getD_eq_getElem _ none (by simpa using hkl), List.getElem_map,
      List.get_eq_getElem]
  · refine ⟨none, ?_⟩
    rw [List.getD_eq_default]
    · rfl
    · simpa using Nat.le_of_not_lt hkl

theorem replaceCell_idem (c : Cell) : replaceCell (replaceCell c) = replaceCell c := by
  cases c with
  | none => rfl
  | some s =>
    by_cases h : s = "None" ∨ s = ""
    · simp [replaceCell, h]
    · simp [replaceCell, h]

theorem replaceCell_ne (c0 : Cell) :
    replaceCell c0 ≠ some "None" ∧ replaceCell c0 ≠ some "" := by
  cases c0 with
  | none => simp [replaceCell]
  | some s =>
    by_cases h : s = "None" ∨ s = ""
    · simp [replaceCell, h]
    · push_neg at h
      simp [replaceCell, h.1, h.2]

theorem cleanTable_cell_fix {t : Table} {r' : Row} (hr' : r' ∈ cleanTable t) {c : Cell}
    (hc : c ∈ r') : replaceCell c = c := by
  obtain ⟨c0, rfl⟩ := cleanTable_cells hr' hc
  exact replaceCell_idem c0

theorem ncols_cleanTable_le {t : Table} (h : Rect t) : ncols (cleanTable t) ≤ ncols t := by
  cases ht1 : dropAllNoneRows (replaceTable t) with
  | nil =>
    simp only [cleanTable, ht1, List.map_nil]
    simp [ncols]
  | cons r0 rs =>
    have h1 : ncols (cleanTable t) = (survivingIdx (r0 :: rs)).length := by
      simp only [cleanTable, ht1, List.map_cons]
      simp [ncols]
    have h2 : (survivingIdx (r0 :: rs)).length ≤ ncols (r0 :: rs) := by
      rw [survivingIdx]
      calc (List.filter (fun j => !(colAllNone (r0 :: rs) j))
            (List.range (ncols (r0 :: rs)))).length
          ≤ (List.range (ncols (r0 :: rs))).length := List.length_filter_le _ _
        _ = ncols (r0 :: rs) := List.length_range _
    have h3 : ncols (r0 :: rs) = ncols t := by
      have hr0 : r0 ∈ dropAllNoneRows (replaceTable t) := ht1 ▸ List.mem_cons_self r0 rs
      have h4 := t1_rows_len h hr0
      simpa [ncols] using h4
    rw [h1]
    rw [h3] at h2
    exact h2

theorem cleanTable_rows_len {t : Table} {r' : Row} (hr' : r' ∈ cleanTable t) :
    r'.length = ncols (cleanTable t) := by
  simp only [cleanTable, List.mem_map] at hr'
  obtain ⟨r, hr, rfl⟩ := hr'
  cases ht1 : dropAllNoneRows (replaceTable t) with
  | nil => rw [ht1] at hr; cases hr
  | cons r0 rs =>
    simp only [cleanTable, ht1, List.map_cons]
    simp [ncols]

theorem replaceTable_cleanTable (t : Table) : replaceTable (cleanTable t) = cleanTable t := by
  rw [replaceTable]
  have hrows : ∀ r ∈ cleanTable t, r.map replaceCell = r := by
    intro r hr
    have hcells : ∀ c ∈ r, replaceCell c = c := fun c hc => cleanTable_cell_fix hr hc
    calc r.map replaceCell = r.map id := List.map_congr_left hcells
      _ = r := List.map_id r
  calc (cleanTable t).map (fun r => r.map replaceCell)
      = (cleanTable t).map id := List.map_congr_left hrows
    _ = cleanTable t := List.map_id _

theorem dropAllNoneRows_cleanTable {t : Table} (h : Rect t) :
    dropAllNoneRows (cleanTable t) = cleanTable t := by
  rw [dropAllNoneRows, List.filter_eq_self]
  intro r hr
  simp [cleanTable_rows_not_allnone h r hr]

theorem survivingIdx_cleanTable (t : Table) :
    survivingIdx (cleanTable t) = List.range (ncols (cleanTable t)) := by
  rw [survivingIdx, List.filter_eq_self]
  intro j hj
  simp [cleanTable_cols_not_allnone t j (List.mem_range.mp hj)]

theorem cleanTable_idem {t : Table} (h : Rect t) : cleanTable (cleanTable t) = cleanTable t := by
  have e0 : cleanTable (cleanTable t) =
      (dropAllNoneRows (replaceTable (cleanTable t))).map
        (fun r => (survivingIdx (dropAllNoneRows (replaceTable (cleanTable t)))).map
          (fun j => r.getD j none)) := rfl
  rw [e0, replaceTable_cleanTable, dropAllNoneRows_cleanTable h, survivingIdx_cleanTable]
  have hrows : ∀ r ∈ cleanTable t,
      (List.range (ncols (cleanTable t))).map (fun j => r.getD j none) = r := by
    intro r hr
    have hlen := cleanTable_rows_len hr
    rw [← hlen]
    exact getD_range_map r
  calc (cleanTable t).map (fun r => (List.range (ncols (cleanTable t))).map
        (fun j => r.getD j none))
      = (cleanTable t).map id := List.map_congr_left hrows
    _ = cleanTable t := List.map_id _

theorem normalizeTable_eq_none_iff (t : Table) :
    normalizeTable t = none ↔ ((cleanTable t).length < 2 ∨ ncols (cleanTable t) < 2) := by
  rw [normalizeTable]
  constructor
  · intro hn
    by_cases hts : tooSmall (cleanTable t) = true
    · rw [tooSmall] at hts
      simpa using hts
    · rw [if_neg (by simpa using hts)] at hn
      cases hn
  · intro hor
    have hts : tooSmall (cleanTable t) = true := by
      rw [tooSmall]
      simpa using hor
    rw [if_pos (by simpa using hts)]

/-- C5: `TableNormalizer` replaces `"None"`/`""` cells with no-value, drops
all-no-value rows then all-no-value columns, and rejects exactly when the
result has fewer than 2 rows or fewer than 2 columns; the output row and
column counts never exceed the input's, no surviving row or column is
entirely no-value, and no placeholder cell survives. -/
theorem c5_normalizer_correct : ∀ t : Table, Rect t →
    (cleanTable t).length ≤ t.length ∧
    ncols (cleanTable t) ≤ ncols t ∧
    (∀ r ∈ cleanTable t, rowAllNone r = false) ∧
    (∀ j, j < ncols (cleanTable t) → colAllNone (cleanTable t) j = false) ∧
    (∀ r ∈ cleanTable t, ∀ c ∈ r, c ≠ some "None" ∧ c ≠ some "") ∧
    (normalizeTable t = none ↔ ((cleanTable t).length < 2 ∨ ncols (cleanTable t) < 2)) := by
  intro t h
  refine ⟨?_, ncols_cleanTable_le h, cleanTable_rows_not_allnone h,
    cleanTable_cols_not_allnone t, ?_, normalizeTable_eq_none_iff t⟩
  · simp only [cleanTable, List.length_map]
    calc (dropAllNoneRows (replaceTable t)).length
        ≤ (replaceTable t).length := List.length_filter_le _ _
      _ = t.length := List.length_map _ _
  · intro r hr c hc
    obtain ⟨c0, rfl⟩ := cleanTable_cells hr hc
    exact replaceCell_ne c0

/-- Witness for C5 at a concrete table. -/
theorem c5_witness :
    (cleanTable exT5).length ≤ exT5.length ∧
    ncols (cleanTable exT5) ≤ ncols exT5 ∧
    (∀ r ∈ cleanTable exT5, rowAllNone r = false) ∧
    (∀ j, j < ncols (cleanTable exT5) → colAllNone (cleanTable exT5) j = false) ∧
    (∀ r ∈ cleanTable exT5, ∀ c ∈ r, c ≠ some "None" ∧ c ≠ some "") ∧
    (normalizeTable exT5 = none ↔
      ((cleanTable exT5).length < 2 ∨ ncols (cleanTable exT5) < 2)) :=
  c5_normalizer_correct exT5 (by decide)

/-- C10: normalization is idempotent — re-normalizing an accepted
(normalized) table accepts it again and returns it unchanged. -/
theorem c10_normalizer_idempotent :
    ∀ t u : Table, Rect t → normalizeTable t = some u → normalizeTable u = some u := by
  intro t u h hn
  rw [normalizeTable] at hn
  by_cases hts : tooSmall (cleanTable t) = true
  · rw [if_pos (by simpa using hts)] at hn
    cases hn
  · rw [if_neg (by simpa using hts)] at hn
    obtain rfl : cleanTable t = u := Option.some.inj hn
    rw [normalizeTable, cleanTable_idem h, if_neg (by simpa using hts)]

/-- Witness for C10 at a concrete accepted table. -/
theorem c10_witness : normalizeTable (cleanTable exT5) = some (cleanTable exT5) :=
  c10_normalizer_idempotent exT5 (cleanTable exT5) (by decide) (by decide)

/-- C3: `RangeParser` matches `number-hyphen-number` as a prefix of the input
(trailing text ignored) and returns the two captured numbers as floats:
`"70 - 110"` gives (70.0, 110.0), `"4.5-11.0 x10^9/L"` gives (4.5, 11.0),
and `"Negative"` and `"<5"` are unparseable. -/
theorem c3_range_examples :
    parse_reference_range "70 - 110" = RangeResult.pair ⟨70, 0⟩ ⟨110, 0⟩ ∧
    parse_reference_range "4.5-11.0 x10^9/L" = RangeResult.pair ⟨45, 1⟩ ⟨110, 1⟩ ∧
    parse_reference_range "Negative" = RangeResult.noMatch ∧
    parse_reference_range "<5" = RangeResult.noMatch ∧
    Dec.toRat ⟨70, 0⟩ = 70 ∧ Dec.toRat ⟨110, 0⟩ = 110 ∧
    Dec.toRat ⟨45, 1⟩ = 4.5 ∧ Dec.toRat ⟨110, 1⟩ = 11 := by
  refine ⟨by decide, by decide, by decide, by decide, ?_, ?_, ?_, ?_⟩ <;>
    norm_num [Dec.toRat]

/-- C4 fails as stated: `RangeParser` is not total — on `"1.2.3-4"` the regex
matches with first captured group `"1.2.3"`, and `float("1.2.3")` raises a
`ValueError` that propagates out of `parse_reference_range`. -/
theorem c4_counterexample : parse_reference_range "1.2.3-4" = RangeResult.raised := by decide

/-- C4 (amended): `RangeParser` returns a pair of floats or the unparseable
signal on every input except those where the regex matches and a captured
group is not a valid number (such as `"1.2.3-4"`), in which case the `float`
conversion raises; that exception escapes `parse_reference_range` and is
absorbed only by its caller `is_out_of_range`. -/
theorem c4_range_totality :
    ∀ s : String,
      (rangeGroups s.data = none → parse_reference_range s = RangeResult.noMatch) ∧
      (∀ g1 g2, rangeGroups s.data = some (g1, g2) →
        (∀ l h, digitDotVal g1 = some l → digitDotVal g2 = some h →
          parse_reference_range s = RangeResult.pair l h) ∧
        ((digitDotVal g1 = none ∨ digitDotVal g2 = none) →
          parse_reference_range s = RangeResult.raised)) := by
  intro s
  constructor
  · intro h
    simp [parse_reference_range, h]
  · intro g1 g2 h
    constructor
    · intro l hi h1 h2
      simp [parse_reference_range, h, h1, h2]
    · intro hor
      rcases hor with h1 | h1
      · cases h2 : digitDotVal g2 <;> simp [parse_reference_range, h, h1, h2]
      · cases h2 : digitDotVal g1 <;> simp [parse_reference_range, h, h1, h2]

/-- Witness for C4 (amended) at a concrete input. -/
theorem c4_witness : parse_reference_range "70-110" = RangeResult.pair ⟨70, 0⟩ ⟨110, 0⟩ :=
  ((c4_range_totality "70-110").2 "70".data "110".data (by decide)).1
    ⟨70, 0⟩ ⟨110, 0⟩ (by decide) (by decide)

/-- C2: `OutOfRangeEvaluator` returns indeterminate exactly when the range
does not parse to a pair of bounds or the value string fails float
conversion, and otherwise returns `value < low or value > high`; in
particular `("120", "70-110")` is out of range and `("90", "70-110")` is
not. -/
theorem c2_out_of_range_evaluator :
    (∀ v r : String, is_out_of_range v r = none ↔
      ((∀ l h, parse_reference_range r ≠ RangeResult.pair l h) ∨ pyFloat v = none)) ∧
    (∀ (v r : String) (l h x : Dec),
      parse_reference_range r = RangeResult.pair l h → pyFloat v = some x →
      is_out_of_range v r = some (Dec.blt x l || Dec.blt h x)) ∧
    is_out_of_range "120" "70-110" = some true ∧
    is_out_of_range "90" "70-110" = some false := by
  refine ⟨?_, ?_, by decide, by decide⟩
  · intro v r
    cases hp : parse_reference_range r with
    | raised =>
      have hval : is_out_of_range v r = none := by
        unfold is_out_of_range
        rw [hp]
      constructor
      · intro _
        exact Or.inl (fun l h hc => RangeResult.noConfusion hc)
      · intro _
        exact hval
    | noMatch =>
      have hval : is_out_of_range v r = none := by
        unfold is_out_of_range
        rw [hp]
      constructor
      · intro _
        exact Or.inl (fun l h hc => RangeResult.noConfusion hc)
      · intro _
        exact hval
    | pair l h =>
      cases hv : pyFloat v with
      | none =>
        have hval : is_out_of_range v r = none := by
          unfold is_out_of_range
          rw [hp, hv]
        constructor
        · intro _
          exact Or.inr rfl
        · intro _
          exact hval
      | some x =>
        have hval : is_out_of_range v r = some (Dec.blt x l || Dec.blt h x) := by
          unfold is_out_of_range
          rw [hp, hv]
        constructor
        · intro hc
          rw [hval] at hc
          cases hc
        · intro hc
          rcases hc with hall | hnone
          · exact absurd rfl (hall l h)
          · cases hnone
  · intro v r l h x hp hx
    unfold is_out_of_range
    rw [hp, hx]

/-- Witness for C2 at a concrete in-range input. -/
theorem c2_witness : is_out_of_range "16.5" "13.0-17.0" = some false := by
  have h := c2_out_of_range_evaluator.2.1 "16.5" "13.0-17.0" ⟨130, 1⟩ ⟨170, 1⟩ ⟨165, 1⟩
    (by decide) (by decide)
  rw [h]
  decide

/-- C6: a record is built only when the resolved, trimmed test_name and
test_value are non-empty and do not lower-case to "none"/"nan"/""; when it
is built, its out-of-range flag is the evaluator's result with indeterminate
mapped to `false`, and indeterminate range-checking never causes the row to
be dropped. -/
theorem c6_record_build_conditions : ∀ (r : Row) (m : ColMap),
    (∀ rec, processRow r m = some rec →
      badField (pyStripS (resolveCell r m.test_name)) = false ∧
      badField (pyStripS (resolveCell r m.test_value)) = false ∧
      rec.lab_test_out_of_range =
        (is_out_of_range rec.test_value rec.bio_reference_range).getD false) ∧
    (badField (pyStripS (resolveCell r m.test_name)) = false →
      badField (pyStripS (resolveCell r m.test_value)) = false →
      processRow r m ≠ none) := by
  intro r m
  constructor
  · intro rec hrec
    simp only [processRow] at hrec
    by_cases h1 : badField (pyStripS (resolveCell r m.test_name)) = true
    · rw [if_pos h1] at hrec
      cases hrec
    · rw [if_neg h1] at hrec
      by_cases h2 : badField (pyStripS (resolveCell r m.test_value)) = true
      · rw [if_pos h2] at hrec
        cases hrec
      · rw [if_neg h2] at hrec
        refine ⟨by simpa using h1, by simpa using h2, ?_⟩
        obtain rfl := Option.some.inj hrec
        rfl
  · intro h1 h2
    simp only [processRow]
    rw [if_neg (by simp [h1]), if_neg (by simp [h2])]
    simp

/-- Witness for C6 at a concrete row. -/
theorem c6_witness :
    badField (pyStripS (resolveCell exRow6 exMap6.test_name)) = false ∧
    badField (pyStripS (resolveCell exRow6 exMap6.test_value)) = false ∧
    exRec6.lab_test_out_of_range =
      (is_out_of_range exRec6.test_value exRec6.bio_reference_range).getD false :=
  (c6_record_build_conditions exRow6 exMap6).1 exRec6 (by decide)

/-- C7: the document-level operation fails only on image decode failure; any
decoded document returns success with the aggregated records — in particular
zero extracted tables, or only rejected tables, still return success with an
empty record list. -/
theorem c7_success_and_aggregation :
    (∀ d : Option (List RawTable), (get_lab_tests d).1 = d.isSome) ∧
    (∀ ts : List RawTable, get_lab_tests (some ts) = (true, (ts.map processTable).flatten)) ∧
    get_lab_tests none = (false, []) ∧
    get_lab_tests (some []) = (true, []) ∧
    (∀ ts : List RawTable, (∀ t ∈ ts, processTable t = []) →
      get_lab_tests (some ts) = (true, [])) := by
  refine ⟨?_, fun ts => rfl, rfl, rfl, ?_⟩
  · intro d
    cases d <;> rfl
  · intro ts h
    have hf : (ts.map processTable).flatten = [] := by
      rw [List.flatten_eq_nil_iff]
      intro l hl
      obtain ⟨t, ht, rfl⟩ := List.mem_map.mp hl
      exact h t ht
    show (true, (ts.map processTable).flatten) = (true, [])
    rw [hf]

/-- Witness for C7: a document whose only table is rejected still succeeds
with an empty record list. -/
theorem c7_witness : get_lab_tests (some [exBadRT]) = (true, []) :=
  c7_success_and_aggregation.2.2.2.2 [exBadRT] (by decide)

/-- C8: failures are local to their boundary — a table that produces no
records (rejected as too small or with insufficient mapping) is skipped
while the other tables' records are still aggregated; a skipped row leaves
the records of the surrounding rows unchanged; and a table's records are
exactly the per-row results, so rows are processed independently. -/
theorem c8_failure_locality :
    (∀ (ts1 ts2 : List RawTable) (t : RawTable), processTable t = [] →
      (get_lab_tests (some (ts1 ++ t :: ts2))).2 =
        (get_lab_tests (some ts1)).2 ++ (get_lab_tests (some ts2)).2) ∧
    (∀ (rs1 rs2 : List Row) (row : Row) (m : ColMap), processRow row m = none →
      (rs1 ++ row :: rs2).filterMap (fun x => processRow x m) =
        rs1.filterMap (fun x => processRow x m) ++ rs2.filterMap (fun x => processRow x m)) ∧
    (∀ (rt : RawTable) (labs : List String) (u : Table) (m : ColMap),
      normalizeRT rt = some (labs, u) → classifyFull (colsOf labs u) = some m →
      processTable rt = u.filterMap (fun x => processRow x m)) := by
  refine ⟨?_, ?_, ?_⟩
  · intro ts1 ts2 t h
    simp [get_lab_tests, List.map_append, List.flatten_append, h]
  · intro rs1 rs2 row m h
    simp [List.filterMap_append, List.filterMap_cons, h]
  · intro rt labs u m h1 h2
    have e : processTable rt = match classifyFull (colsOf labs u) with
        | none => []
        | some mm => u.filterMap (fun r => processRow r mm) := by
      unfold processTable
      rw [h1]
    rw [e, h2]

/-- Witness for C8: a rejected table between two (empty) table lists leaves
the aggregate unchanged. -/
theorem c8_witness :
    (get_lab_tests (some ([] ++ exBadRT :: []))).2 =
      (get_lab_tests (some [])).2 ++ (get_lab_tests (some [])).2 :=
  c8_failure_locality.1 [] [] exBadRT (by decide)

/-- C9: when the resolved unit is empty, the value contains "/" and splits
on whitespace into more than one token, the record's value becomes the first
token and its unit the remaining tokens joined by single spaces. -/
theorem c9_fallback_split : ∀ (row : Row) (m : ColMap),
    pyStripS (resolveCell row m.test_unit) = "" →
    (pyStripS (resolveCell row m.test_value)).data.contains '/' = true →
    1 < (pySplit (pyStripS (resolveCell row m.test_value))).length →
    badField (pyStripS (resolveCell row m.test_name)) = false →
    badField (pyStripS (resolveCell row m.test_value)) = false →
    (processRow row m).map LabTest.test_value =
      some ((pySplit (pyStripS (resolveCell row m.test_value))).headD "") ∧
    (processRow row m).map LabTest.test_unit =
      some (String.intercalate " " (pySplit (pyStripS (resolveCell row m.test_value))).tail) := by
  intro row m hu hsl hlen hn hv
  have hmem : '/' ∈ (pyStripS (resolveCell row m.test_value)).data := by simpa using hsl
  simp [processRow, hu, hmem, hlen, hn, hv]

/-- Witness for C9: the row with value cell "12.5 g/dL" and no unit column
yields value "12.5" and unit "g/dL". -/
theorem c9_witness :
    (processRow exRow9 exMap9).map LabTest.test_value = some "12.5" ∧
    (processRow exRow9 exMap9).map LabTest.test_unit = some "g/dL" := by
  obtain ⟨h1, h2⟩ := c9_fallback_split exRow9 exMap9 (by decide) (by decide) (by decide)
    (by decide) (by decide)
  refine ⟨?_, ?_⟩
  · rw [h1]
    decide
  · rw [h2]
    decide
